import Mathlib

/-!
Verification development for the Surface Serial Hub (SSH) transport driver
(module/surfacegen5_acpi_ssh.c).  The driver's frame codec, receiver
reassembler, request engine and event dispatcher are embedded shallowly:

* bytes are natural numbers (arithmetic that the C performs on `u8`/`u16`
  values carries an explicit `% 256` / `% 65536` where truncation matters);
* buffers are lists of naturals, read through `getB`/`sliceB` (reads past
  the end yield 0, matching the zero-initialised evaluation buffer);
* the concurrent environment of the request engine (completion timeouts,
  packets observed in the kfifo, serdev flush results, allocation success)
  is passed in explicitly as oracle data, so every function is a pure,
  executable Lean definition mirroring the C control flow.
-/

/-- Read byte `i` of a buffer; out-of-range reads yield 0 (the evaluation
buffer is zero-initialised by the driver). -/
def getB (buf : List Nat) (i : Nat) : Nat := buf.getD i 0

/-- Contiguous slice of `len` bytes starting at offset `off`. -/
def sliceB (buf : List Nat) (off len : Nat) : List Nat := (buf.drop off).take len

theorem getB_nil (i : Nat) : getB [] i = 0 := by
  cases i <;> rfl

theorem getB_append_left (m r : List Nat) (i : Nat) (h : i < m.length) :
    getB (m ++ r) i = getB m i := by
  induction m generalizing i with
  | nil => simp at h
  | cons a t ih =>
    cases i with
    | zero => rfl
    | succ n =>
      have := ih n (by simpa using h)
      simpa [getB, List.getD] using this

theorem sliceB_append_left (m r : List Nat) (off len : Nat)
    (h : off + len ≤ m.length) :
    sliceB (m ++ r) off len = sliceB m off len := by
  unfold sliceB
  rw [List.drop_append_of_le_length (by omega)]
  rw [List.take_append_of_le_length (by simp; omega)]

theorem getB_take (m : List Nat) (k i : Nat) (h : i < k) :
    getB (m.take k) i = getB m i := by
  by_cases hk : k ≤ m.length
  · conv_rhs => rw [← List.take_append_drop k m]
    rw [getB_append_left _ _ i (by simp; omega)]
  · rw [List.take_of_length_le (by omega)]

theorem sliceB_take (m : List Nat) (k off len : Nat) (h : off + len ≤ k) :
    sliceB (m.take k) off len = sliceB m off len := by
  by_cases hk : k ≤ m.length
  · conv_rhs => rw [← List.take_append_drop k m]
    rw [sliceB_append_left _ _ off len (by simp; omega)]
  · rw [List.take_of_length_le (by omega)]

/-!
CRC.  The driver computes `crc_ccitt_false(0xffff, buf, size)` (kernel
library `linux/crc-ccitt.h`): CRC-CCITT-FALSE, polynomial 0x1021, initial
value 0xffff, no reflection, no final xor.  The kernel implementation is
table-driven; the table is the MSB-first polynomial 0x1021, so the
per-byte step below (xor the byte into the high 8 bits, then 8 polynomial
shift rounds) computes the same function.
-/

/-- One polynomial shift round of CRC-CCITT-FALSE. -/
def sg5crcRound (c : Nat) : Nat :=
  if c &&& 0x8000 = 0 then (c <<< 1) &&& 0xffff else ((c <<< 1) ^^^ 0x1021) &&& 0xffff

/-- Iterated shift rounds. -/
def sg5crcRounds : Nat → Nat → Nat
  | 0, c => c
  | n + 1, c => sg5crcRounds n (sg5crcRound c)

/-- CRC-CCITT-FALSE over a byte list, starting from accumulator `c`. -/
def crc_ccitt_false : Nat → List Nat → Nat
  | c, [] => c
  | c, b :: bs => crc_ccitt_false (sg5crcRounds 8 (c ^^^ ((b &&& 0xff) <<< 8))) bs

/-- Embeds `surfacegen5_ssh_crc`: CRC-CCITT-FALSE with initial value 0xffff. -/
def surfacegen5_ssh_crc (buf : List Nat) : Nat := crc_ccitt_false 0xffff buf

/-- Little-endian 16-bit encoding of the CRC of `bs`, as written by
`surfacegen5_ssh_write_crc` (low byte first). -/
def sg5crcBytes (bs : List Nat) : List Nat :=
  [surfacegen5_ssh_crc bs &&& 0xff, surfacegen5_ssh_crc bs >>> 8]

/-!
Constants.  `SURFACEGEN5_RQID_EVENT_BITS`, `SURFACEGEN5_MAX_RQST_PAYLOAD`
and `SURFACEGEN5_EVENT_IMMEDIATE` live in the header
`surfacegen5_acpi_ssh.h`, which is not part of the sources at hand; they
are modelled from the spec.
-/

/-- Modelled from the spec: `SURFACEGEN5_RQID_EVENT_BITS`, the EC-defined
event-bits parameter N ("event-bits=N (EC-defined)").  The header defining
it is not among the sources; the value 5 is a representative choice
consistent with the spec's constraints (ID 1 is a reserved *event* ID, so
N ≥ 1, and the event subspace is a strict subspace of the 16-bit IDs). -/
def SURFACEGEN5_RQID_EVENT_BITS : Nat := 5

/-- Modelled from the spec: `SURFACEGEN5_MAX_RQST_PAYLOAD`, the EC-defined
maximum request payload ("MAX_PAYLOAD (EC-defined)").  The header defining
it is not among the sources; 247 is the largest value for which the
control-frame length byte `8 + cdl` fits a `u8`. -/
def SURFACEGEN5_MAX_RQST_PAYLOAD : Nat := 247

/-- Modelled from the spec: `SURFACEGEN5_EVENT_IMMEDIATE`, the sentinel
delay requesting inline handler invocation ("IMMEDIATE sentinel").  The
header defining it is not among the sources; modelled as `(unsigned
long)-1`, distinct from every real delay (in particular from the default
delay 0 used when no delay function is registered). -/
def SURFACEGEN5_EVENT_IMMEDIATE : Nat := 18446744073709551615

/-- Embeds `surfacegen5_rqid_to_rqst`: the request-id placed in an outgoing
command frame is the counter shifted left by `SURFACEGEN5_RQID_EVENT_BITS`,
truncated to `u16`. -/
def surfacegen5_rqid_to_rqst (rqid : Nat) : Nat :=
  (rqid <<< SURFACEGEN5_RQID_EVENT_BITS) % 65536

/-- Embeds `surfacegen5_rqid_is_event`: a request-id denotes an event iff
it is non-zero and `(rqid | mask) == mask` for the event mask
`(1 << SURFACEGEN5_RQID_EVENT_BITS) - 1`. -/
def surfacegen5_rqid_is_event (rqid : Nat) : Bool :=
  let mask : Nat := (1 <<< SURFACEGEN5_RQID_EVENT_BITS) - 1
  rqid != 0 && (rqid ||| mask) == mask

/-- Follows the spec's words, for comparison with the source definition
`surfacegen5_rqid_is_event`: "IDs whose low N bits are all-set (event
mask) are event IDs (and non-zero)". -/
def rqid_is_event_spec (rqid : Nat) : Bool :=
  let mask : Nat := (1 <<< SURFACEGEN5_RQID_EVENT_BITS) - 1
  rqid != 0 && (rqid &&& mask) == mask

/-- C1 counterexample: the claim's characterisation ("low N bits of r all
set") disagrees with the code at r = 1: `surfacegen5_rqid_is_event`
classifies 1 as an event ID (the source comments that RQID 0x0001 is
reserved for Surface Laptop keyboard events), yet the low N bits of 1 are
not all set. -/
theorem c1_counterexample :
    surfacegen5_rqid_is_event 1 = true ∧ rqid_is_event_spec 1 = false := by
  decide

theorem lor_mask31_eq_iff (r : Nat) : r ||| 31 = 31 ↔ r < 32 := by
  constructor
  · intro h
    by_contra hge
    push_neg at hge
    obtain ⟨i, hi, hbit⟩ :=
      Nat.ge_two_pow_implies_high_bit_true (x := r) (n := 5) (by norm_num; omega)
    have hb : (r ||| 31).testBit i = true := by
      simp [Nat.testBit_or, hbit]
    rw [h] at hb
    have h31 : (31 : Nat).testBit i = false := by
      have := Nat.testBit_two_pow_sub_one 5 i
      norm_num at this
      simp [this]
      omega
    rw [h31] at hb
    exact Bool.false_ne_true hb
  · intro h
    apply Nat.eq_of_testBit_eq
    intro i
    by_cases hi : i < 5
    · have h31 : (31 : Nat).testBit i = true := by
        have := Nat.testBit_two_pow_sub_one 5 i
        norm_num at this
        simp [this, hi]
      simp [Nat.testBit_or, h31]
    · have h31 : (31 : Nat).testBit i = false := by
        have := Nat.testBit_two_pow_sub_one 5 i
        norm_num at this
        simp [this]
        omega
      have hr : r.testBit i = false := by
        apply Nat.testBit_lt_two_pow
        calc r < 32 := h
          _ = 2 ^ 5 := by norm_num
          _ ≤ 2 ^ i := Nat.pow_le_pow_right (by norm_num) (by omega)
      simp [Nat.testBit_or, h31, hr]

/-- C1 (amended): a request-id r is classified as an event ID iff r is
non-zero and r lies entirely within the low-N-bit event mask (r ≤ 2^N - 1
= 31); every id produced by left-shifting a counter by N bits (any counter
value, after u16 truncation) is classified as a request/response ID. -/
theorem c1_event_id_classification :
    (∀ r, surfacegen5_rqid_is_event r = true ↔ (r ≠ 0 ∧ r ≤ 31)) ∧
    (∀ c, surfacegen5_rqid_is_event (surfacegen5_rqid_to_rqst c) = false) := by
  have hmask : ((1 <<< SURFACEGEN5_RQID_EVENT_BITS) - 1 : Nat) = 31 := by decide
  have hiff : ∀ r, surfacegen5_rqid_is_event r = true ↔ (r ≠ 0 ∧ r ≤ 31) := by
    intro r
    unfold surfacegen5_rqid_is_event
    rw [hmask]
    simp only [Bool.and_eq_true, bne_iff_ne, beq_iff_eq, ne_eq]
    rw [lor_mask31_eq_iff]
    omega
  refine ⟨hiff, fun c => ?_⟩
  have h1 : surfacegen5_rqid_to_rqst c = 32 * (c % 2048) := by
    unfold surfacegen5_rqid_to_rqst SURFACEGEN5_RQID_EVENT_BITS
    rw [Nat.shiftLeft_eq]
    norm_num
    rw [show (65536 : Nat) = 2048 * 32 by norm_num, Nat.mul_mod_mul_right]
    ring
  have h2 : ¬ (surfacegen5_rqid_is_event (surfacegen5_rqid_to_rqst c) = true) := by
    rw [hiff, h1]
    rintro ⟨hne, hle⟩
    rcases Nat.eq_zero_or_pos (c % 2048) with h | h
    · exact hne (by omega)
    · omega
  simpa using h2

/-!
Receiver.  `struct surfacegen5_ec_receiver` holds the receiver substate,
the expectation set by the request engine, the packet kfifo and the
evaluation buffer.  `RcvCore` models the substate, the expectation and the
remaining kfifo capacity in bytes (`kfifo_avail`); the evaluation buffer is
carried separately by `SG5Receiver` below, since `surfacegen5_ssh_eval_buf`
operates on a raw byte region.  Emissions record every externally visible
action of the receive path: a control packet enqueued to the kfifo (plus
completion), a command packet with payload enqueued to the kfifo (plus
completion), or a validated event handed to the dispatcher.
-/

inductive RState
  | discard
  | control
  | command
deriving DecidableEq, Repr

structure RcvCore where
  rstate : RState
  expectPld : Bool
  expectSeq : Nat
  expectRqid : Nat
  fifoAvail : Nat
deriving DecidableEq, Repr

/-- Event data extracted by `surfacegen5_ssh_handle_event` from a received
message: `work->event` fields plus the payload copy.  `len` is the `u16`
variable `pld_len = ctrl->len - SG5_BYTELEN_CMDFRAME` (wrapping at 2^16,
as the C `u16` does); the payload copy takes `pld_len` bytes starting at
the command-frame payload offset 16. -/
structure SG5Event where
  rqid : Nat
  tc : Nat
  iid : Nat
  cid : Nat
  len : Nat
  pld : List Nat
deriving DecidableEq, Repr

/-- Field extraction of `surfacegen5_ssh_handle_event` (offsets: ctrl frame
at 2, command frame at 8, payload at 16). -/
def sg5EventOfBuf (buf : List Nat) : SG5Event :=
  { rqid := (getB buf 14 <<< 8) ||| getB buf 13
  , tc := getB buf 9
  , iid := getB buf 12
  , cid := getB buf 15
  , len := (getB buf 3 + 65536 - 8) % 65536
  , pld := sliceB buf 16 ((getB buf 3 + 65536 - 8) % 65536) }

inductive SG5Emission
  | ctrlPacket (ty sq : Nat)
  | cmdPacket (ty sq ln : Nat) (pld : List Nat)
  | event (seq : Nat) (ev : SG5Event)
deriving DecidableEq, Repr

/-- Embeds `surfacegen5_ssh_is_valid_syn`. -/
def surfacegen5_ssh_is_valid_syn (buf : List Nat) : Prop :=
  getB buf 0 = 0xaa ∧ getB buf 1 = 0x55

instance (buf : List Nat) : Decidable (surfacegen5_ssh_is_valid_syn buf) :=
  inferInstanceAs (Decidable (_ ∧ _))

/-- Embeds `surfacegen5_ssh_is_valid_ter` at offset `off`. -/
def surfacegen5_ssh_is_valid_ter (buf : List Nat) (off : Nat) : Prop :=
  getB buf off = 0xff ∧ getB buf (off + 1) = 0xff

instance (buf : List Nat) (off : Nat) :
    Decidable (surfacegen5_ssh_is_valid_ter buf off) :=
  inferInstanceAs (Decidable (_ ∧ _))

/-- Embeds `surfacegen5_ssh_is_valid_crc` for the region `[off, off+len)`
with the stored little-endian CRC at `off+len`. -/
def surfacegen5_ssh_is_valid_crc (buf : List Nat) (off len : Nat) : Prop :=
  getB buf (off + len) = surfacegen5_ssh_crc (sliceB buf off len) &&& 0xff ∧
  getB buf (off + len + 1) = surfacegen5_ssh_crc (sliceB buf off len) >>> 8

instance (buf : List Nat) (off len : Nat) :
    Decidable (surfacegen5_ssh_is_valid_crc buf off len) :=
  inferInstanceAs (Decidable (_ ∧ _))

/-- State-dependent tail of `surfacegen5_ssh_receive_msg_ctrl`, reached
once the message is syntactically valid (length, TERM and CRC checked):
the expectation check, the kfifo enqueue (a control packet occupies
`sizeof(surfacegen5_fifo_packet)` = 3 bytes), the receiver-state update on
ACK, and the completion.  `ty`/`sq` are the control type and sequence
bytes of the message. -/
def sg5CtrlStep (s : RcvCore) (ty sq : Nat) : Nat × List SG5Emission × RcvCore :=
  if s.rstate ≠ RState.control then (10, [], s)
  else if ty = 0x40 ∧ sq ≠ s.expectSeq then (10, [], s)
  else if 3 ≤ s.fifoAvail then
    (10, [SG5Emission.ctrlPacket ty sq],
     { s with
       fifoAvail := s.fifoAvail - 3
       rstate :=
         if ty = 0x40 then
           (if s.expectPld then RState.command else RState.discard)
         else s.rstate })
  else (10, [], s)

/-- Embeds `surfacegen5_ssh_receive_msg_ctrl` (ACK/RETRY messages).  The
return value is the number of consumed bytes (0 = need more bytes), the
emissions (kfifo enqueue + completion), and the updated receiver state.
Offsets: SYN at 0, control frame at 2, control CRC at 6, TERM at 8;
`SG5_MSG_LEN_CTRL` = 10. -/
def surfacegen5_ssh_receive_msg_ctrl (s : RcvCore) (buf : List Nat) :
    Nat × List SG5Emission × RcvCore :=
  if buf.length < 10 then (0, [], s)
  else if ¬ surfacegen5_ssh_is_valid_ter buf 8 then (buf.length, [], s)
  else if ¬ surfacegen5_ssh_is_valid_crc buf 2 4 then (10, [], s)
  else sg5CtrlStep s (getB buf 2) (getB buf 5)

/-- State-dependent tail of `surfacegen5_ssh_receive_msg_cmd`, reached
once both CRCs and the command type are validated: event classification
(handing the message to the dispatcher), the expectation checks, the kfifo
enqueue (3-byte packet header plus `packet.len` payload bytes), the
receiver-state update and the completion.  `ty`/`ln`/`sq` are the control
type, length and sequence bytes; `rqA` is the request-id as the event
check reads it (`(rqid_hi << 8) | rqid_lo`), `rqB` as the match check
reads it (`rqid_lo | (rqid_hi << 8)`); `ev` is the extracted event data
and `pld` the payload slice enqueued for a response. -/
def sg5CmdStep (s : RcvCore) (ty ln sq rqA rqB : Nat) (ev : SG5Event)
    (pld : List Nat) : Nat × List SG5Emission × RcvCore :=
  if surfacegen5_rqid_is_event rqA then
    (10 + ln, [SG5Emission.event sq ev], s)
  else if s.rstate ≠ RState.command then (10 + ln, [], s)
  else if s.expectRqid ≠ rqB then (10 + ln, [], s)
  else
    if 3 + (ln + 256 - 8) % 256 ≤ s.fifoAvail then
      (10 + ln,
       [SG5Emission.cmdPacket ty sq ((ln + 256 - 8) % 256) pld],
       { s with
         rstate := RState.discard
         fifoAvail := s.fifoAvail - (3 + (ln + 256 - 8) % 256) })
    else (10, [], s)

/-- Embeds `surfacegen5_ssh_receive_msg_cmd` (command messages: responses
and events).  Offsets: control frame at 2, control CRC at 6, command frame
at 8, payload at 16; `msg_len = SG5_MSG_LEN_CMD_BASE + ctrl->len = 10 +
ctrl->len`.  `packet.len` is a `u8` holding the pointer difference
`cmd_end - cmd_begin_pld = ctrl->len - 8` (mod 256, as the C conversion
does).  On a full kfifo the code returns `SG5_MSG_LEN_CTRL` (10), not
`msg_len`, exactly as the source does. -/
def surfacegen5_ssh_receive_msg_cmd (s : RcvCore) (buf : List Nat) :
    Nat × List SG5Emission × RcvCore :=
  if buf.length < 8 then (0, [], s)
  else if ¬ surfacegen5_ssh_is_valid_crc buf 2 4 then (buf.length, [], s)
  else if buf.length < 10 + getB buf 3 then (0, [], s)
  else if getB buf 8 ≠ 0x80 then (buf.length, [], s)
  else if ¬ surfacegen5_ssh_is_valid_crc buf 8 (getB buf 3) then
    (10 + getB buf 3, [], s)
  else
    sg5CmdStep s (getB buf 2) (getB buf 3) (getB buf 5)
      ((getB buf 14 <<< 8) ||| getB buf 13) (getB buf 13 ||| (getB buf 14 <<< 8))
      (sg5EventOfBuf buf) (sliceB buf 16 ((getB buf 3 + 256 - 8) % 256))

/-- Embeds `surfacegen5_ssh_eval_buf`: requires SYN plus a control frame,
validates SYN, then dispatches on the control type byte (ACK 0x40 / RETRY
0x04 / CMD 0x80); anything else discards the whole buffer. -/
def surfacegen5_ssh_eval_buf (s : RcvCore) (buf : List Nat) :
    Nat × List SG5Emission × RcvCore :=
  if buf.length < 6 then (0, [], s)
  else if ¬ surfacegen5_ssh_is_valid_syn buf then (buf.length, [], s)
  else if getB buf 2 = 0x40 ∨ getB buf 2 = 0x04 then
    surfacegen5_ssh_receive_msg_ctrl s buf
  else if getB buf 2 = 0x80 then
    surfacegen5_ssh_receive_msg_cmd s buf
  else (buf.length, [], s)

/-!
Concrete receive-path inputs used by counterexamples (CRC bytes computed
from the `crc_ccitt_false` model above).
-/

/-- Receiver state with an outstanding request expecting seq 0 / rqid 0. -/
def c3state : RcvCore :=
  { rstate := RState.control, expectPld := false, expectSeq := 0,
    expectRqid := 0, fifoAvail := 512 }

/-- A valid RETRY message with ctrl sequence 7 (CRC of `04 00 00 07`). -/
def c3buf : List Nat := [0xaa, 0x55, 0x04, 0x00, 0x00, 0x07, 214, 62, 0xff, 0xff]

set_option maxRecDepth 8000 in
/-- C3 counterexample: with an outstanding request expecting seq 0, a valid
RETRY message with ctrl sequence 7 is enqueued into the FIFO and the
completion raised (an emission is produced), although its sequence does
not equal the expected sequence — the seq check guards only ACK frames, so
"that packet matches the current expectation: a control packet's seq
equals expect.seq" fails. -/
theorem c3_counterexample :
    (surfacegen5_ssh_eval_buf c3state c3buf).2.1 = [SG5Emission.ctrlPacket 0x04 7] ∧
    c3state.expectSeq = 0 ∧ (7 : Nat) ≠ 0 := by
  decide

/-- A buffer holding a command message whose control frame (`80 08 00 00`,
CRC bytes 89 240) is valid, whose command-frame type byte (offset 8) is
0x00 instead of CMD=0x80, whose command CRC is invalid, and which is
followed by one extra byte (total 19 bytes, message length 18). -/
def c6buf : List Nat :=
  [0xaa, 0x55, 0x80, 0x08, 0x00, 0x00, 89, 240,
   0x00, 0, 0, 0, 0, 0, 0, 0, 0, 0, 0]

set_option maxRecDepth 8000 in
/-- C6 counterexample: on `c6buf` the command CRC is invalid, yet the
evaluator consumes the entire 19-byte buffer rather than exactly
`SG5_MSG_LEN_CMD_BASE + ctrl.len` = 18 bytes: the command-frame *type*
check (absent from the claim) fires first and discards everything. -/
theorem c6_counterexample :
    (surfacegen5_ssh_eval_buf c3state c6buf).1 = 19 ∧
    10 + getB c6buf 3 = 18 ∧
    ¬ surfacegen5_ssh_is_valid_crc c6buf 8 (getB c6buf 3) ∧
    (19 : Nat) ≠ 18 := by
  decide

/-- Idle receiver state (no outstanding request). -/
def c9state : RcvCore :=
  { rstate := RState.discard, expectPld := false, expectSeq := 0,
    expectRqid := 0, fifoAvail := 512 }

/-- A 19-byte buffer whose command message has ctrl.len = 1: control frame
`80 01 00 00` (CRC bytes 200 110), a one-byte "command frame" `80` with
its valid CRC (bytes 120 112) at offsets 9-10, and subsequent stream bytes
such that the request-id read at offsets 13-14 equals 1 (an event ID). -/
def c9buf : List Nat :=
  [0xaa, 0x55, 0x80, 0x01, 0x00, 0x00, 200, 110,
   0x80, 120, 112, 0, 0, 0x01, 0x00, 0, 0, 0, 0]

set_option maxRecDepth 8000 in
/-- C9 failing input: `c9buf` passes every check of
`surfacegen5_ssh_receive_msg_cmd` and reaches the event-dispatch path with
ctrl.len = 1 < 8 (the command-frame header size); the `u16` payload length
`ctrl.len - 8` wraps to 65529, so the payload copy does not stay within
the 11 bytes of the received message. -/
theorem c9_wrap_at_failing_input :
    (surfacegen5_ssh_eval_buf c9state c9buf).2.1 =
      [SG5Emission.event 0 (sg5EventOfBuf c9buf)] ∧
    getB c9buf 3 = 1 ∧
    (sg5EventOfBuf c9buf).len = 65529 ∧
    (surfacegen5_ssh_eval_buf c9state c9buf).1 = 11 := by
  decide

set_option maxHeartbeats 2000000 in
/-- C3 (amended): whenever the receiver enqueues a packet into the FIFO
and raises the completion (i.e. emits), the packet matches the current
expectation as the code checks it: an enqueued *ACK* control packet's seq
equals expect.seq (RETRY packets are enqueued without a sequence check),
and an enqueued command-response packet's rqid equals expect.rqid;
conversely an ACK with a mismatching seq and a response with a mismatching
rqid are discarded, consuming the message without any emission or state
change. -/
theorem c3_expectation_matching (s : RcvCore) (buf : List Nat) :
    (∀ ty sq, (surfacegen5_ssh_eval_buf s buf).2.1 = [SG5Emission.ctrlPacket ty sq] →
       s.rstate = RState.control ∧ (ty = 0x40 → sq = s.expectSeq)) ∧
    (∀ ty sq ln pl,
       (surfacegen5_ssh_eval_buf s buf).2.1 = [SG5Emission.cmdPacket ty sq ln pl] →
       s.rstate = RState.command ∧
       s.expectRqid = (getB buf 13 ||| (getB buf 14 <<< 8))) ∧
    (10 ≤ buf.length → surfacegen5_ssh_is_valid_syn buf → getB buf 2 = 0x40 →
       surfacegen5_ssh_is_valid_ter buf 8 → surfacegen5_ssh_is_valid_crc buf 2 4 →
       s.rstate = RState.control → getB buf 5 ≠ s.expectSeq →
       surfacegen5_ssh_eval_buf s buf = (10, [], s)) ∧
    (surfacegen5_ssh_is_valid_syn buf → getB buf 2 = 0x80 →
       surfacegen5_ssh_is_valid_crc buf 2 4 → 10 + getB buf 3 ≤ buf.length →
       getB buf 8 = 0x80 → surfacegen5_ssh_is_valid_crc buf 8 (getB buf 3) →
       surfacegen5_rqid_is_event ((getB buf 14 <<< 8) ||| getB buf 13) = false →
       s.rstate = RState.command →
       s.expectRqid ≠ (getB buf 13 ||| (getB buf 14 <<< 8)) →
       surfacegen5_ssh_eval_buf s buf = (10 + getB buf 3, [], s)) := by
  refine ⟨?_, ?_, ?_, ?_⟩
  · intro ty sq h
    unfold surfacegen5_ssh_eval_buf at h
    repeat' split at h
    all_goals (try (unfold surfacegen5_ssh_receive_msg_ctrl at h))
    all_goals (try (unfold surfacegen5_ssh_receive_msg_cmd at h))
    repeat' split at h
    all_goals (try (unfold sg5CtrlStep at h))
    all_goals (try (unfold sg5CmdStep at h))
    repeat' split at h
    all_goals simp_all
    all_goals (intro hEq; omega)
  · intro ty sq ln pl h
    unfold surfacegen5_ssh_eval_buf at h
    repeat' split at h
    all_goals (try (unfold surfacegen5_ssh_receive_msg_ctrl at h))
    all_goals (try (unfold surfacegen5_ssh_receive_msg_cmd at h))
    repeat' split at h
    all_goals (try (unfold sg5CtrlStep at h))
    all_goals (try (unfold sg5CmdStep at h))
    repeat' split at h
    all_goals simp_all
  · intro hlen hsyn hty hter hcrc hst hseq
    unfold surfacegen5_ssh_eval_buf surfacegen5_ssh_receive_msg_ctrl sg5CtrlStep
    rw [if_neg (by omega), if_neg (by simp [hsyn]), if_pos (Or.inl hty),
        if_neg (by omega), if_neg (by simp [hter]), if_neg (by simp [hcrc]),
        if_neg (by simp [hst]), if_pos ⟨hty, hseq⟩]
  · intro hsyn hty hcrc hlen hcty hccrc hevt hst hrq
    unfold surfacegen5_ssh_eval_buf surfacegen5_ssh_receive_msg_cmd sg5CmdStep
    rw [if_neg (by omega), if_neg (by simp [hsyn]), if_neg (by simp [hty]),
        if_pos hty, if_neg (by omega), if_neg (by simp [hcrc]),
        if_neg (by omega), if_neg (by simp [hcty]), if_neg (by simp [hccrc]),
        if_neg (by simp [hevt]), if_neg (by simp [hst]), if_pos hrq]

/-- A valid ACK message with ctrl sequence 5 (CRC of `40 00 00 05`). -/
def c3wbuf : List Nat := [0xaa, 0x55, 0x40, 0x00, 0x00, 0x05, 249, 186, 0xff, 0xff]

set_option maxRecDepth 8000 in
/-- C3 witness: a valid ACK whose sequence 5 mismatches the expected
sequence 0 is discarded without emission or state change. -/
theorem c3_expectation_matching_witness :
    surfacegen5_ssh_eval_buf c3state c3wbuf = (10, [], c3state) :=
  (c3_expectation_matching c3state c3wbuf).2.2.1 (by decide) (by decide)
    (by decide) (by decide) (by decide) (by decide) (by decide)

set_option maxHeartbeats 2000000 in
/-- C6 (amended): for a buffered byte sequence starting with a valid SYN
whose control-type byte is CMD: with fewer than SYN+ctrl+crc (8) bytes the
evaluator consumes nothing; with an invalid control CRC it consumes the
entire buffer; with a valid control CRC but fewer than
`SG5_MSG_LEN_CMD_BASE + ctrl.len` bytes it consumes nothing; if the
command-frame type byte is not CMD it consumes the entire buffer (the
clause the original claim omits); and if the command-frame type is CMD but
the command CRC is invalid it consumes exactly `SG5_MSG_LEN_CMD_BASE +
ctrl.len` bytes with no emission, leaving the request to time out. -/
theorem c6_cmd_message_consumption (s : RcvCore) (buf : List Nat)
    (hsyn : surfacegen5_ssh_is_valid_syn buf) (hty : getB buf 2 = 0x80) :
    (buf.length < 8 → surfacegen5_ssh_eval_buf s buf = (0, [], s)) ∧
    (8 ≤ buf.length → ¬ surfacegen5_ssh_is_valid_crc buf 2 4 →
       surfacegen5_ssh_eval_buf s buf = (buf.length, [], s)) ∧
    (8 ≤ buf.length → surfacegen5_ssh_is_valid_crc buf 2 4 →
       buf.length < 10 + getB buf 3 →
       surfacegen5_ssh_eval_buf s buf = (0, [], s)) ∧
    (surfacegen5_ssh_is_valid_crc buf 2 4 → 10 + getB buf 3 ≤ buf.length →
       getB buf 8 ≠ 0x80 →
       surfacegen5_ssh_eval_buf s buf = (buf.length, [], s)) ∧
    (surfacegen5_ssh_is_valid_crc buf 2 4 → 10 + getB buf 3 ≤ buf.length →
       getB buf 8 = 0x80 → ¬ surfacegen5_ssh_is_valid_crc buf 8 (getB buf 3) →
       surfacegen5_ssh_eval_buf s buf = (10 + getB buf 3, [], s)) := by
  have hteq : ¬ (getB buf 2 = 0x40 ∨ getB buf 2 = 0x04) := by simp [hty]
  refine ⟨?_, ?_, ?_, ?_, ?_⟩
  · intro hlen
    unfold surfacegen5_ssh_eval_buf surfacegen5_ssh_receive_msg_cmd
    by_cases h6 : buf.length < 6
    · rw [if_pos h6]
    · rw [if_neg h6, if_neg (by simp [hsyn]), if_neg hteq, if_pos hty,
          if_pos hlen]
  · intro hlen hcrc
    unfold surfacegen5_ssh_eval_buf surfacegen5_ssh_receive_msg_cmd
    rw [if_neg (by omega), if_neg (by simp [hsyn]), if_neg hteq, if_pos hty,
        if_neg (by omega), if_pos hcrc]
  · intro hlen hcrc hshort
    unfold surfacegen5_ssh_eval_buf surfacegen5_ssh_receive_msg_cmd
    rw [if_neg (by omega), if_neg (by simp [hsyn]), if_neg hteq, if_pos hty,
        if_neg (by omega), if_neg (by simp [hcrc]), if_pos hshort]
  · intro hcrc hlen hcty
    unfold surfacegen5_ssh_eval_buf surfacegen5_ssh_receive_msg_cmd
    rw [if_neg (by omega), if_neg (by simp [hsyn]), if_neg hteq, if_pos hty,
        if_neg (by omega), if_neg (by simp [hcrc]), if_neg (by omega),
        if_pos hcty]
  · intro hcrc hlen hcty hccrc
    unfold surfacegen5_ssh_eval_buf surfacegen5_ssh_receive_msg_cmd
    rw [if_neg (by omega), if_neg (by simp [hsyn]), if_neg hteq, if_pos hty,
        if_neg (by omega), if_neg (by simp [hcrc]), if_neg (by omega),
        if_neg (by simp [hcty]), if_pos hccrc]

/-- A command message of exactly `SG5_MSG_LEN_CMD_BASE + ctrl.len` = 18
bytes whose control frame is valid but whose command CRC is not (stored
CRC bytes are zero). -/
def c6wbuf : List Nat :=
  [0xaa, 0x55, 0x80, 0x08, 0x00, 0x00, 89, 240,
   0x80, 0, 0, 0, 0, 0, 0, 0, 0, 0]

set_option maxRecDepth 8000 in
/-- C6 witness: on `c6wbuf` (valid SYN, CMD type, valid control CRC,
invalid command CRC) the evaluator consumes exactly 18 bytes with no
emission. -/
theorem c6_cmd_message_consumption_witness :
    surfacegen5_ssh_eval_buf c9state c6wbuf = (10 + getB c6wbuf 3, [], c9state) :=
  (c6_cmd_message_consumption c9state c6wbuf (by decide) (by decide)).2.2.2.2
    (by decide) (by decide) (by decide) (by decide)

/-!
Event dispatcher.  `surfacegen5_ssh_handle_event` allocates a work item
owning a copy of the payload and the ctrl sequence, schedules ACK work on
the single-threaded ACK queue, then resolves the registered delay function
(under the subscription spinlock) and either runs the handler work inline
(IMMEDIATE) or schedules it on the event queue with the obtained delay.
The registry is modelled per request-id: whether a handler function is
registered (read later by the event work handler) and, if a delay function
is registered, the delay it returns for this event.  `kzalloc` success is
the `allocOk` oracle; on failure the event is dropped with a warning.
-/

/-- Registration entry for one request-id (`surfacegen5_ec_event_handler`):
`registered` models a non-NULL handler pointer; `delayResult` models a
non-NULL delay function together with the delay it returns. -/
structure SG5HandlerSlot where
  registered : Bool
  delayResult : Option Nat
deriving DecidableEq, Repr

/-- Externally visible scheduling actions of the event dispatch path, in
program order. -/
inductive SG5DispatchAction
  | queueAck (seq : Nat)
  | runInline (ev : SG5Event)
  | queueEvt (delay : Nat) (ev : SG5Event)
deriving DecidableEq, Repr

/-- Embeds `surfacegen5_ssh_handle_event`.  Allocation failure drops the
event entirely; otherwise ACK work (carrying `ctrl->seq` at offset 5) is
queued first, then the handler work runs inline if the registered delay
function returns `SURFACEGEN5_EVENT_IMMEDIATE` (the delay defaults to 0
when no delay function is registered) and is queued with the returned
delay otherwise. -/
def surfacegen5_ssh_handle_event (reg : Nat → SG5HandlerSlot) (allocOk : Bool)
    (buf : List Nat) : List SG5DispatchAction :=
  if allocOk = false then []
  else
    let ev := sg5EventOfBuf buf
    let delay := match (reg ev.rqid).delayResult with
      | some d => d
      | none => 0
    SG5DispatchAction.queueAck (getB buf 5) ::
      (if delay = SURFACEGEN5_EVENT_IMMEDIATE then [SG5DispatchAction.runInline ev]
       else [SG5DispatchAction.queueEvt delay ev])

/-- C7: for every frame handed to the event dispatcher (with the work-item
allocation succeeding), exactly one ACK work item is scheduled, it carries
the event's ctrl sequence, and it is scheduled before the single handler
action (inline invocation or delayed queueing); this holds for every
registry, in particular whether or not a handler is registered for the
event's request-id. -/
theorem c7_ack_scheduled_once_first (reg : Nat → SG5HandlerSlot)
    (buf : List Nat) :
    ∃ a, surfacegen5_ssh_handle_event reg true buf =
           [SG5DispatchAction.queueAck (getB buf 5), a] ∧
         (∀ sq, a ≠ SG5DispatchAction.queueAck sq) := by
  unfold surfacegen5_ssh_handle_event
  simp only [Bool.true_eq_false, if_false]
  split
  · exact ⟨_, rfl, fun sq => by simp⟩
  · exact ⟨_, rfl, fun sq => by simp⟩

/-!
Frame encoder.  The writer accumulates bytes; each `surfacegen5_ssh_write_*`
helper is modelled as the byte list it appends.  `u8` struct fields receive
an explicit `% 256` exactly where the C assignment truncates a wider
arithmetic result (`hdr->len = SG5_BYTELEN_CMDFRAME + rqst->cdl`); fields
copied from `u8` sources (tc, iid, cid, seq) are written unchanged.
-/

/-- Request structure (`struct surfacegen5_rqst`): target category,
instance id, command id, snc flag, payload length `cdl` and payload. -/
structure SG5Rqst where
  tc : Nat
  iid : Nat
  cid : Nat
  snc : Bool
  cdl : Nat
  pld : List Nat
deriving DecidableEq, Repr

/-- Counters (`struct surfacegen5_ec_counters`): `seq : u8`, `rqid : u16`. -/
structure SG5Counters where
  seq : Nat
  rqid : Nat
deriving DecidableEq, Repr

/-- Embeds `surfacegen5_ssh_write_hdr`: control frame `80 (8+cdl) 00 seq`
followed by its little-endian CRC. -/
def surfacegen5_ssh_write_hdr (c : SG5Counters) (rqst : SG5Rqst) : List Nat :=
  let hdr : List Nat := [0x80, (8 + rqst.cdl) % 256, 0x00, c.seq]
  hdr ++ sg5crcBytes hdr

/-- Embeds `surfacegen5_ssh_write_cmd`: command frame `80 tc 01 00 iid
rqid_lo rqid_hi cid`, then `cdl` payload bytes, then the little-endian CRC
of command frame plus payload. -/
def surfacegen5_ssh_write_cmd (c : SG5Counters) (rqst : SG5Rqst) : List Nat :=
  let rqid := surfacegen5_rqid_to_rqst c.rqid
  let body : List Nat :=
    [0x80, rqst.tc, 0x01, 0x00, rqst.iid, rqid &&& 0xff, rqid >>> 8, rqst.cid]
      ++ rqst.pld.take rqst.cdl
  body ++ sg5crcBytes body

/-- Embeds `surfacegen5_ssh_write_msg_cmd`: writer reset, SYN, control
frame + CRC, command frame + payload + CRC. -/
def surfacegen5_ssh_write_msg_cmd (c : SG5Counters) (rqst : SG5Rqst) : List Nat :=
  [0xaa, 0x55] ++ surfacegen5_ssh_write_hdr c rqst ++ surfacegen5_ssh_write_cmd c rqst

/-- Embeds `surfacegen5_ssh_write_msg_ack` (and the equivalent open-coded
`surfacegen5_ssh_send_ack`): SYN, ACK control frame `40 00 00 seq` + CRC,
TERM. -/
def surfacegen5_ssh_write_msg_ack (seq : Nat) : List Nat :=
  let ack : List Nat := [0x40, 0x00, 0x00, seq]
  [0xaa, 0x55] ++ ack ++ sg5crcBytes ack ++ [0xff, 0xff]

/-- C5: for every request with `cdl = |payload| ≤ MAX_PAYLOAD` the encoder
writes exactly SYN; control bytes `80, 8+cdl, 00, counter.seq`; the
little-endian CRC of those 4 bytes; command bytes `80, tc, 01, 00, iid,
rqid_lo, rqid_hi, cid` with rqid the counter shifted left by N bits (u16);
the payload; and the little-endian CRC of command frame plus payload —
and re-encoding with the same counters yields identical bytes (the encoder
is a pure function of counters and request). -/
theorem c5_encoder_bytes (c : SG5Counters) (rqst : SG5Rqst)
    (h1 : rqst.cdl = rqst.pld.length)
    (h2 : rqst.cdl ≤ SURFACEGEN5_MAX_RQST_PAYLOAD) :
    surfacegen5_ssh_write_msg_cmd c rqst =
      [0xaa, 0x55]
        ++ ([0x80, 8 + rqst.cdl, 0x00, c.seq]
            ++ sg5crcBytes [0x80, 8 + rqst.cdl, 0x00, c.seq])
        ++ (([0x80, rqst.tc, 0x01, 0x00, rqst.iid,
              ((c.rqid <<< SURFACEGEN5_RQID_EVENT_BITS) % 65536) &&& 0xff,
              ((c.rqid <<< SURFACEGEN5_RQID_EVENT_BITS) % 65536) >>> 8,
              rqst.cid] ++ rqst.pld)
            ++ sg5crcBytes
              ([0x80, rqst.tc, 0x01, 0x00, rqst.iid,
                ((c.rqid <<< SURFACEGEN5_RQID_EVENT_BITS) % 65536) &&& 0xff,
                ((c.rqid <<< SURFACEGEN5_RQID_EVENT_BITS) % 65536) >>> 8,
                rqst.cid] ++ rqst.pld)) ∧
    surfacegen5_ssh_write_msg_cmd c rqst = surfacegen5_ssh_write_msg_cmd c rqst := by
  have hmod : (8 + rqst.cdl) % 256 = 8 + rqst.cdl := by
    apply Nat.mod_eq_of_lt
    unfold SURFACEGEN5_MAX_RQST_PAYLOAD at h2
    omega
  have htake : rqst.pld.take rqst.cdl = rqst.pld := by
    rw [h1]
    exact List.take_length _
  refine ⟨?_, rfl⟩
  unfold surfacegen5_ssh_write_msg_cmd surfacegen5_ssh_write_hdr
    surfacegen5_ssh_write_cmd surfacegen5_rqid_to_rqst
  rw [hmod, htake]

/-- Concrete counters for the C5 witness: seq 0, rqid counter 2. -/
def c5wc : SG5Counters := { seq := 0, rqid := 2 }

/-- Concrete request for the C5 witness: tc 1, iid 0, cid 0x16, snc, empty
payload (the EC-resume request of scenario S1). -/
def c5wr : SG5Rqst :=
  { tc := 0x01, iid := 0x00, cid := 0x16, snc := true, cdl := 0, pld := [] }

/-- C5 witness: instantiates the encoder equation at the scenario-S1
request with seq 0 and rqid counter 2. -/
theorem c5_encoder_bytes_witness :
    surfacegen5_ssh_write_msg_cmd c5wc c5wr =
      [0xaa, 0x55]
        ++ ([0x80, 8 + c5wr.cdl, 0x00, c5wc.seq]
            ++ sg5crcBytes [0x80, 8 + c5wr.cdl, 0x00, c5wc.seq])
        ++ (([0x80, c5wr.tc, 0x01, 0x00, c5wr.iid,
              ((c5wc.rqid <<< SURFACEGEN5_RQID_EVENT_BITS) % 65536) &&& 0xff,
              ((c5wc.rqid <<< SURFACEGEN5_RQID_EVENT_BITS) % 65536) >>> 8,
              c5wr.cid] ++ c5wr.pld)
            ++ sg5crcBytes
              ([0x80, c5wr.tc, 0x01, 0x00, c5wr.iid,
                ((c5wc.rqid <<< SURFACEGEN5_RQID_EVENT_BITS) % 65536) &&& 0xff,
                ((c5wc.rqid <<< SURFACEGEN5_RQID_EVENT_BITS) % 65536) >>> 8,
                c5wr.cid] ++ c5wr.pld)) :=
  (c5_encoder_bytes c5wc c5wr (by decide) (by decide)).1

/-!
Request engine.  `surfacegen5_ec_rqst_unlocked` runs under the controller
mutex: it encodes the request once, restarts the receiver expectation,
retries flush+wait up to `SG5_NUM_RETRY` times, bumps the counters once an
ACK is dequeued, optionally consumes the response and ACKs it, and finally
clears the receiver to discard.  The concurrent environment is an oracle:
per try, the serdev flush status and the packet (if any) made available by
the receiver before the read timeout; for the response phase, the response
packet with its payload bytes and the ACK flush status.  The model returns
`(status, ec, wire, result)` where `wire` lists the messages successfully
flushed to the serdev and `result` the bytes copied to the caller buffer.
-/

def SG5_READ_BUF_LEN : Nat := 512

def SG5_NUM_RETRY : Nat := 3

/-- `SG5_MAX_WRITE` = SYN + ctrl + CRC + cmd frame + max payload + CRC;
also the evaluation-buffer capacity `SG5_EVAL_BUF_LEN`. -/
def SG5_MAX_WRITE : Nat := 2 + 4 + 2 + 8 + SURFACEGEN5_MAX_RQST_PAYLOAD + 2

def SG5_EVAL_BUF_LEN : Nat := SG5_MAX_WRITE

/-- Receiver with its evaluation buffer (`eval_buf` contents). -/
structure SG5Receiver where
  core : RcvCore
  ebuf : List Nat
deriving DecidableEq, Repr

inductive SG5ECState
  | uninitialized
  | initialized
  | suspended
deriving DecidableEq, Repr

/-- Controller (`struct surfacegen5_ec`): lifecycle state, counters and
receiver.  The writer buffer is modelled by the byte lists the encoder
produces; the work queues belong to the event dispatcher model. -/
structure SG5EC where
  state : SG5ECState
  counter : SG5Counters
  receiver : SG5Receiver
deriving DecidableEq, Repr

/-- Packet header dequeued from the kfifo
(`struct surfacegen5_fifo_packet`). -/
structure SG5FifoPacket where
  ty : Nat
  sq : Nat
  ln : Nat
deriving DecidableEq, Repr

/-- Oracle for one retry-loop iteration: the serdev flush status and the
packet (if any) available on the completion before the read timeout. -/
structure SG5TryEnv where
  flushStatus : Int
  wait : Option SG5FifoPacket
deriving DecidableEq, Repr

/-- Oracle for the response phase: response packet with payload bytes (if
the completion fires before the timeout) and the ACK flush status. -/
structure SG5RespEnv where
  wait : Option (SG5FifoPacket × List Nat)
  ackFlushStatus : Int
deriving DecidableEq, Repr

/-- Caller-provided result buffer capacity (`struct surfacegen5_buf`). -/
structure SG5Buf where
  cap : Nat
deriving DecidableEq, Repr

/-- Outcome of the retry loop: flush failure (aborts with the flush
status), an ACK packet dequeued, or all tries exhausted; each carries the
messages flushed so far. -/
inductive SG5LoopRes
  | flushFail (e : Int) (wire : List (List Nat))
  | acked (p : SG5FifoPacket) (wire : List (List Nat))
  | exhausted (wire : List (List Nat))
deriving DecidableEq, Repr

/-- Prepends this iteration's flushed message to the loop outcome. -/
def sg5LoopPushWire (m : List Nat) : SG5LoopRes → SG5LoopRes
  | SG5LoopRes.flushFail e w => SG5LoopRes.flushFail e (m :: w)
  | SG5LoopRes.acked p w => SG5LoopRes.acked p (m :: w)
  | SG5LoopRes.exhausted w => SG5LoopRes.exhausted (m :: w)

/-- The retry loop of `surfacegen5_ec_rqst_unlocked` (one list entry per
try; the driver iterates `SG5_NUM_RETRY` times, so the oracle list has
length `SG5_NUM_RETRY`): flush the writer (abort on failure), wait for the
completion, dequeue one packet, stop on ACK, otherwise (RETRY, other, or
timeout) try again. -/
def sg5RetryLoop (msg : List Nat) : List SG5TryEnv → SG5LoopRes
  | [] => SG5LoopRes.exhausted []
  | t :: ts =>
    if t.flushStatus ≠ 0 then SG5LoopRes.flushFail t.flushStatus []
    else
      match t.wait with
      | some p =>
        if p.ty = 0x40 then SG5LoopRes.acked p [msg]
        else sg5LoopPushWire msg (sg5RetryLoop msg ts)
      | none => sg5LoopPushWire msg (sg5RetryLoop msg ts)

/-- Wire component of a loop outcome. -/
def sg5LoopWire : SG5LoopRes → List (List Nat)
  | SG5LoopRes.flushFail _ w => w
  | SG5LoopRes.acked _ w => w
  | SG5LoopRes.exhausted w => w

theorem sg5RetryLoop_wire (msg : List Nat) (tries : List SG5TryEnv) :
    ∀ x ∈ sg5LoopWire (sg5RetryLoop msg tries), x = msg := by
  induction tries with
  | nil => intro x hx; simp [sg5RetryLoop, sg5LoopWire] at hx
  | cons t ts ih =>
    intro x hx
    unfold sg5RetryLoop at hx
    split at hx
    · simp [sg5LoopWire] at hx
    · split at hx
      · split at hx
        · simp [sg5LoopWire] at hx
          exact hx
        · rcases hr : sg5RetryLoop msg ts with e | p | w <;>
            rw [hr] at hx <;> simp [sg5LoopPushWire, sg5LoopWire] at hx <;>
            rcases hx with hx | hx <;>
            first
              | exact hx
              | exact ih x (by rw [hr]; simpa [sg5LoopWire] using hx)
      · rcases hr : sg5RetryLoop msg ts with e | p | w <;>
          rw [hr] at hx <;> simp [sg5LoopPushWire, sg5LoopWire] at hx <;>
          rcases hx with hx | hx <;>
          first
            | exact hx
            | exact ih x (by rw [hr]; simpa [sg5LoopWire] using hx)

/-- Embeds `surfacegen5_ssh_receiver_restart`: under the receiver lock,
reinitialise the completion, enter AwaitingControl, set the expectation
from the request and the counters, and clear the evaluation buffer. -/
def surfacegen5_ssh_receiver_restart (ec : SG5EC) (rqst : SG5Rqst) : SG5EC :=
  { ec with receiver :=
    { core :=
      { rstate := RState.control
        expectPld := rqst.snc
        expectSeq := ec.counter.seq
        expectRqid := surfacegen5_rqid_to_rqst ec.counter.rqid
        fifoAvail := ec.receiver.core.fifoAvail }
      ebuf := [] } }

/-- Embeds `surfacegen5_ssh_receiver_discard`: under the receiver lock,
enter Discard, clear the evaluation buffer and reset the kfifo (restoring
its full `SG5_READ_BUF_LEN` capacity). -/
def surfacegen5_ssh_receiver_discard (ec : SG5EC) : SG5EC :=
  { ec with receiver :=
    { core :=
      { ec.receiver.core with
        rstate := RState.discard
        fifoAvail := SG5_READ_BUF_LEN }
      ebuf := [] } }

/-- Embeds `surfacegen5_ec_rqst_unlocked`.  Error codes are the C ones:
-22 = -EINVAL (oversized payload, undersized result buffer), -5 = -EIO
(retries exhausted, response timeout).  Note `if (rqst->snc && result)`:
with a NULL result pointer the whole response phase is skipped. -/
def surfacegen5_ec_rqst_unlocked (ec : SG5EC) (rqst : SG5Rqst)
    (result : Option SG5Buf) (tries : List SG5TryEnv) (renv : SG5RespEnv) :
    Int × SG5EC × List (List Nat) × Option (List Nat) :=
  if SURFACEGEN5_MAX_RQST_PAYLOAD < rqst.cdl then (-22, ec, [], none)
  else
    let msg := surfacegen5_ssh_write_msg_cmd ec.counter rqst
    let ec1 := surfacegen5_ssh_receiver_restart ec rqst
    match sg5RetryLoop msg tries with
    | SG5LoopRes.flushFail e w => (e, surfacegen5_ssh_receiver_discard ec1, w, none)
    | SG5LoopRes.exhausted w => (-5, surfacegen5_ssh_receiver_discard ec1, w, none)
    | SG5LoopRes.acked _ w =>
      let ec2 : SG5EC :=
        { ec1 with counter :=
          { seq := (ec1.counter.seq + 1) % 256
            rqid := (ec1.counter.rqid + 1) % 65536 } }
      match rqst.snc, result with
      | true, some res =>
        match renv.wait with
        | none => (-5, surfacegen5_ssh_receiver_discard ec2, w, none)
        | some (pkt, data) =>
          if res.cap < pkt.ln then
            (-22, surfacegen5_ssh_receiver_discard ec2, w, none)
          else
            let ackMsg := surfacegen5_ssh_write_msg_ack pkt.sq
            if renv.ackFlushStatus ≠ 0 then
              (renv.ackFlushStatus, surfacegen5_ssh_receiver_discard ec2, w,
               some (data.take pkt.ln))
            else
              (0, surfacegen5_ssh_receiver_discard ec2, w ++ [ackMsg],
               some (data.take pkt.ln))
      | _, _ => (0, surfacegen5_ssh_receiver_discard ec2, w, none)

/-- Embeds `surfacegen5_ec_rqst`: acquire the controller; if it is
Uninitialized fail with -6 = -ENXIO, if Suspended fail with -1 = -EPERM,
otherwise delegate to `surfacegen5_ec_rqst_unlocked`. -/
def surfacegen5_ec_rqst (ec : SG5EC) (rqst : SG5Rqst) (result : Option SG5Buf)
    (tries : List SG5TryEnv) (renv : SG5RespEnv) :
    Int × SG5EC × List (List Nat) × Option (List Nat) :=
  match ec.state with
  | SG5ECState.uninitialized => (-6, ec, [], none)
  | SG5ECState.suspended => (-1, ec, [], none)
  | SG5ECState.initialized => surfacegen5_ec_rqst_unlocked ec rqst result tries renv

/-- C4: for every call of the request engine (with a payload within
bounds, so the retry loop is reached): if the retry loop obtains an ACK,
`counter.seq` and `counter.rqid` each increase by exactly one (mod 2^8 /
2^16), regardless of the response-phase oracle and of whether the response
phase succeeds; if the loop aborts on a flush failure or exhausts all
tries without an ACK, both counters are unchanged. -/
theorem c4_counter_update (ec : SG5EC) (rqst : SG5Rqst) (result : Option SG5Buf)
    (tries : List SG5TryEnv) (renv : SG5RespEnv)
    (h2 : rqst.cdl ≤ SURFACEGEN5_MAX_RQST_PAYLOAD) :
    (∀ p w, sg5RetryLoop (surfacegen5_ssh_write_msg_cmd ec.counter rqst) tries =
        SG5LoopRes.acked p w →
      (surfacegen5_ec_rqst_unlocked ec rqst result tries renv).2.1.counter =
        { seq := (ec.counter.seq + 1) % 256
          rqid := (ec.counter.rqid + 1) % 65536 }) ∧
    (∀ e w, sg5RetryLoop (surfacegen5_ssh_write_msg_cmd ec.counter rqst) tries =
        SG5LoopRes.flushFail e w →
      (surfacegen5_ec_rqst_unlocked ec rqst result tries renv).2.1.counter =
        ec.counter) ∧
    (∀ w, sg5RetryLoop (surfacegen5_ssh_write_msg_cmd ec.counter rqst) tries =
        SG5LoopRes.exhausted w →
      (surfacegen5_ec_rqst_unlocked ec rqst result tries renv).2.1.counter =
        ec.counter) := by
  refine ⟨?_, ?_, ?_⟩
  · intro p w h
    unfold surfacegen5_ec_rqst_unlocked
    rw [if_neg (by omega)]
    simp only [h]
    repeat' split
    all_goals rfl
  · intro e w h
    unfold surfacegen5_ec_rqst_unlocked
    rw [if_neg (by omega)]
    simp only [h]
    rfl
  · intro w h
    unfold surfacegen5_ec_rqst_unlocked
    rw [if_neg (by omega)]
    simp only [h]
    rfl

/-- Initialized controller with counters seq 0 / rqid 2 and an idle
receiver, used by engine witnesses. -/
def c4wec : SG5EC :=
  { state := SG5ECState.initialized
    counter := { seq := 0, rqid := 2 }
    receiver := { core := c9state, ebuf := [] } }

/-- Engine oracle: the peer ACKs on the first try. -/
def c4wtries : List SG5TryEnv :=
  [{ flushStatus := 0, wait := some { ty := 0x40, sq := 0, ln := 0 } },
   { flushStatus := 0, wait := none },
   { flushStatus := 0, wait := none }]

/-- Engine oracle: no response-phase activity. -/
def c4wrenv : SG5RespEnv := { wait := none, ackFlushStatus := 0 }

/-- C4 witness: with an ACK on the first try, counters (0, 2) advance to
(1, 3). -/
theorem c4_counter_update_witness :
    (surfacegen5_ec_rqst_unlocked c4wec c5wr none c4wtries c4wrenv).2.1.counter =
      { seq := 1, rqid := 3 } :=
  (c4_counter_update c4wec c5wr none c4wtries c4wrenv (by decide)).1
    { ty := 0x40, sq := 0, ln := 0 }
    [surfacegen5_ssh_write_msg_cmd c4wec.counter c5wr] rfl

/-- C8: the public request operation fails fast outside Initialized with
distinct error codes: -6 (-ENXIO) when Uninitialized and -1 (-EPERM) when
Suspended, in both cases returning the controller unchanged, with nothing
transmitted on the wire and nothing copied to the caller. -/
theorem c8_fail_fast (ec : SG5EC) (rqst : SG5Rqst) (result : Option SG5Buf)
    (tries : List SG5TryEnv) (renv : SG5RespEnv) :
    (ec.state = SG5ECState.uninitialized →
       surfacegen5_ec_rqst ec rqst result tries renv = (-6, ec, [], none)) ∧
    (ec.state = SG5ECState.suspended →
       surfacegen5_ec_rqst ec rqst result tries renv = (-1, ec, [], none)) := by
  constructor <;> intro h <;> unfold surfacegen5_ec_rqst <;> rw [h]

/-- Uninitialized controller for the C8 witness. -/
def c8wecU : SG5EC :=
  { state := SG5ECState.uninitialized
    counter := { seq := 0, rqid := 0 }
    receiver := { core := c9state, ebuf := [] } }

/-- Suspended controller for the C8 witness. -/
def c8wecS : SG5EC :=
  { state := SG5ECState.suspended
    counter := { seq := 0, rqid := 0 }
    receiver := { core := c9state, ebuf := [] } }

/-- C8 witness: both fail-fast paths at concrete controllers. -/
theorem c8_fail_fast_witness :
    surfacegen5_ec_rqst c8wecU c5wr none c4wtries c4wrenv = (-6, c8wecU, [], none) ∧
    surfacegen5_ec_rqst c8wecS c5wr none c4wtries c4wrenv = (-1, c8wecS, [], none) :=
  ⟨(c8_fail_fast c8wecU c5wr none c4wtries c4wrenv).1 rfl,
   (c8_fail_fast c8wecS c5wr none c4wtries c4wrenv).2 rfl⟩

/-- C10: if a request has snc set but the result pointer is NULL, the
engine skips the response phase entirely: once the retry loop obtains an
ACK it returns success (0) with the counters bumped, transmits nothing
beyond the request frames already flushed by the loop (in particular no
response ACK), copies nothing to the caller, and leaves the receiver
cleared to Discard. -/
theorem c10_skip_response_phase (ec : SG5EC) (rqst : SG5Rqst)
    (tries : List SG5TryEnv) (renv : SG5RespEnv) (p : SG5FifoPacket)
    (w : List (List Nat))
    (h1 : rqst.snc = true)
    (h2 : rqst.cdl ≤ SURFACEGEN5_MAX_RQST_PAYLOAD)
    (h3 : sg5RetryLoop (surfacegen5_ssh_write_msg_cmd ec.counter rqst) tries =
            SG5LoopRes.acked p w) :
    surfacegen5_ec_rqst_unlocked ec rqst none tries renv =
      (0,
       surfacegen5_ssh_receiver_discard
         { surfacegen5_ssh_receiver_restart ec rqst with counter :=
           { seq := (ec.counter.seq + 1) % 256
             rqid := (ec.counter.rqid + 1) % 65536 } },
       w, none) ∧
    (∀ x ∈ w, x = surfacegen5_ssh_write_msg_cmd ec.counter rqst) ∧
    (surfacegen5_ec_rqst_unlocked ec rqst none tries renv).2.1.receiver.core.rstate =
      RState.discard := by
  have hmain :
      surfacegen5_ec_rqst_unlocked ec rqst none tries renv =
        (0,
         surfacegen5_ssh_receiver_discard
           { surfacegen5_ssh_receiver_restart ec rqst with counter :=
             { seq := (ec.counter.seq + 1) % 256
               rqid := (ec.counter.rqid + 1) % 65536 } },
         w, none) := by
    unfold surfacegen5_ec_rqst_unlocked
    rw [if_neg (by omega)]
    simp only [h3, h1]
    rfl
  refine ⟨hmain, ?_, ?_⟩
  · have hw := sg5RetryLoop_wire (surfacegen5_ssh_write_msg_cmd ec.counter rqst) tries
    rw [h3] at hw
    simpa [sg5LoopWire] using hw
  · rw [hmain]
    rfl

/-- C10 witness: concrete run with snc set, a NULL result pointer and an
ACK on the first try. -/
theorem c10_skip_response_phase_witness :
    surfacegen5_ec_rqst_unlocked c4wec c5wr none c4wtries c4wrenv =
      (0,
       surfacegen5_ssh_receiver_discard
         { surfacegen5_ssh_receiver_restart c4wec c5wr with counter :=
           { seq := (c4wec.counter.seq + 1) % 256
             rqid := (c4wec.counter.rqid + 1) % 65536 } },
       [surfacegen5_ssh_write_msg_cmd c4wec.counter c5wr], none) :=
  (c10_skip_response_phase c4wec c5wr c4wtries c4wrenv
    { ty := 0x40, sq := 0, ln := 0 }
    [surfacegen5_ssh_write_msg_cmd c4wec.counter c5wr] rfl (by decide) rfl).1

/-!
Receive-buffer loop.  `surfacegen5_ssh_receive_buf` appends the chunk to
the evaluation buffer (up to its capacity), then repeatedly calls
`surfacegen5_ssh_eval_buf` on the remaining bytes until it reports "need
more bytes" (0), and finally compacts the buffer by the consumed offset.
The loop is modelled with explicit fuel (each iteration consumes at least
one byte, so `buf.length` fuel always suffices); when the evaluator
returns 0 it has produced no emission and left the state unchanged, so
stopping with `(0, [], s)` matches the C `break`.
-/

def sg5EvalLoopFuel : Nat → RcvCore → List Nat → Nat × List SG5Emission × RcvCore
  | 0, s, _ => (0, [], s)
  | fuel + 1, s, buf =>
    if buf.length = 0 then (0, [], s)
    else
      let r := surfacegen5_ssh_eval_buf s buf
      if r.1 = 0 then (0, [], s)
      else
        let r2 := sg5EvalLoopFuel fuel r.2.2 (buf.drop r.1)
        (r.1 + r2.1, r.2.1 ++ r2.2.1, r2.2.2)

/-- The evaluation loop of `surfacegen5_ssh_receive_buf` (offset
accumulation, emissions in order, final receiver state). -/
def sg5EvalLoop (s : RcvCore) (buf : List Nat) : Nat × List SG5Emission × RcvCore :=
  sg5EvalLoopFuel buf.length s buf

/-- Embeds `surfacegen5_ssh_receive_buf`: copy as much of the chunk as
fits the evaluation buffer, run the evaluation loop, and drop the
evaluated part; returns the updated receiver, the emissions and the
number of bytes accepted (`used`, the C return value). -/
def surfacegen5_ssh_receive_buf (r : SG5Receiver) (chunk : List Nat) :
    SG5Receiver × List SG5Emission × Nat :=
  let used := min chunk.length (SG5_EVAL_BUF_LEN - r.ebuf.length)
  let buf := r.ebuf ++ chunk.take used
  let l := sg5EvalLoop r.core buf
  ({ core := l.2.2, ebuf := buf.drop l.1 }, l.2.1, used)

/-- Delivers a sequence of chunks to `surfacegen5_ssh_receive_buf`,
collecting all emissions in order. -/
def sg5ReceiveStream (r : SG5Receiver) : List (List Nat) → SG5Receiver × List SG5Emission
  | [] => (r, [])
  | c :: cs =>
    let x := surfacegen5_ssh_receive_buf r c
    let y := sg5ReceiveStream x.1 cs
    (y.1, x.2.1 ++ y.2)

/-- Reference run: evaluate each message of a list on its own, threading
the receiver state. -/
def sg5ConsumeMsgs (s : RcvCore) : List (List Nat) → RcvCore × List SG5Emission
  | [] => (s, [])
  | m :: ms =>
    let r := surfacegen5_ssh_eval_buf s m
    let r2 := sg5ConsumeMsgs r.2.2 ms
    (r2.1, r.2.1 ++ r2.2)

/-- Concatenation of a message list into the byte stream. -/
def sg5Join : List (List Nat) → List Nat
  | [] => []
  | m :: ms => m ++ sg5Join ms

/-- Kfifo bytes a message can consume: 3 packet-header bytes, plus the
`packet.len` payload bytes for a command message. -/
def sg5MsgFifoNeed (m : List Nat) : Nat :=
  if getB m 2 = 0x80 then 3 + (getB m 3 + 256 - 8) % 256 else 3

def sg5FifoNeed : List (List Nat) → Nat
  | [] => 0
  | m :: ms => sg5MsgFifoNeed m + sg5FifoNeed ms

/-- A complete, well-formed ACK/RETRY message: exactly
`SG5_MSG_LEN_CTRL` = 10 bytes, valid SYN, ACK or RETRY type, valid TERM
and control CRC. -/
def SG5CompleteCtrl (m : List Nat) : Prop :=
  m.length = 10 ∧ surfacegen5_ssh_is_valid_syn m ∧
  (getB m 2 = 0x40 ∨ getB m 2 = 0x04) ∧
  surfacegen5_ssh_is_valid_ter m 8 ∧ surfacegen5_ssh_is_valid_crc m 2 4

instance (m : List Nat) : Decidable (SG5CompleteCtrl m) :=
  inferInstanceAs (Decidable (_ ∧ _))

/-- A complete, well-formed command message: exactly
`SG5_MSG_LEN_CMD_BASE + ctrl.len` bytes, valid SYN, CMD control type,
valid control CRC, CMD command-frame type, valid command CRC, and a
control length that is a byte covering at least the command-frame header
(so every field the receive path reads lies inside the message). -/
def SG5CompleteCmd (m : List Nat) : Prop :=
  m.length = 10 + getB m 3 ∧ 8 ≤ getB m 3 ∧ getB m 3 ≤ 255 ∧
  surfacegen5_ssh_is_valid_syn m ∧ getB m 2 = 0x80 ∧
  surfacegen5_ssh_is_valid_crc m 2 4 ∧ getB m 8 = 0x80 ∧
  surfacegen5_ssh_is_valid_crc m 8 (getB m 3)

instance (m : List Nat) : Decidable (SG5CompleteCmd m) :=
  inferInstanceAs (Decidable (_ ∧ _))

def SG5CompleteMsg (m : List Nat) : Prop := SG5CompleteCtrl m ∨ SG5CompleteCmd m

instance (m : List Nat) : Decidable (SG5CompleteMsg m) :=
  inferInstanceAs (Decidable (_ ∨ _))

theorem valid_syn_append (m r : List Nat) (h : 2 ≤ m.length) :
    surfacegen5_ssh_is_valid_syn (m ++ r) ↔ surfacegen5_ssh_is_valid_syn m := by
  unfold surfacegen5_ssh_is_valid_syn
  rw [getB_append_left _ _ 0 (by omega), getB_append_left _ _ 1 (by omega)]

theorem valid_ter_append (m r : List Nat) (off : Nat) (h : off + 2 ≤ m.length) :
    surfacegen5_ssh_is_valid_ter (m ++ r) off ↔ surfacegen5_ssh_is_valid_ter m off := by
  unfold surfacegen5_ssh_is_valid_ter
  rw [getB_append_left _ _ off (by omega), getB_append_left _ _ (off + 1) (by omega)]

theorem valid_crc_append (m r : List Nat) (off len : Nat)
    (h : off + len + 2 ≤ m.length) :
    surfacegen5_ssh_is_valid_crc (m ++ r) off len ↔
      surfacegen5_ssh_is_valid_crc m off len := by
  unfold surfacegen5_ssh_is_valid_crc
  rw [getB_append_left _ _ (off + len) (by omega),
      getB_append_left _ _ (off + len + 1) (by omega),
      sliceB_append_left _ _ off len (by omega)]

theorem receive_msg_ctrl_reduce (s : RcvCore) (buf : List Nat)
    (hlen : 10 ≤ buf.length) (hter : surfacegen5_ssh_is_valid_ter buf 8)
    (hcrc : surfacegen5_ssh_is_valid_crc buf 2 4) :
    surfacegen5_ssh_receive_msg_ctrl s buf = sg5CtrlStep s (getB buf 2) (getB buf 5) := by
  unfold surfacegen5_ssh_receive_msg_ctrl
  rw [if_neg (by omega), if_neg (by simp [hter]), if_neg (by simp [hcrc])]

theorem receive_msg_cmd_reduce (s : RcvCore) (buf : List Nat)
    (hlen : 10 + getB buf 3 ≤ buf.length)
    (hcrc : surfacegen5_ssh_is_valid_crc buf 2 4)
    (hcty : getB buf 8 = 0x80)
    (hccrc : surfacegen5_ssh_is_valid_crc buf 8 (getB buf 3)) :
    surfacegen5_ssh_receive_msg_cmd s buf =
      sg5CmdStep s (getB buf 2) (getB buf 3) (getB buf 5)
        ((getB buf 14 <<< 8) ||| getB buf 13) (getB buf 13 ||| (getB buf 14 <<< 8))
        (sg5EventOfBuf buf) (sliceB buf 16 ((getB buf 3 + 256 - 8) % 256)) := by
  unfold surfacegen5_ssh_receive_msg_cmd
  rw [if_neg (by omega), if_neg (by simp [hcrc]), if_neg (by omega),
      if_neg (by simp [hcty]), if_neg (by simp [hccrc])]

theorem eval_reduce_ctrl (s : RcvCore) (buf : List Nat) (h6 : 6 ≤ buf.length)
    (hsyn : surfacegen5_ssh_is_valid_syn buf)
    (hty : getB buf 2 = 0x40 ∨ getB buf 2 = 0x04) :
    surfacegen5_ssh_eval_buf s buf = surfacegen5_ssh_receive_msg_ctrl s buf := by
  unfold surfacegen5_ssh_eval_buf
  rw [if_neg (by omega), if_neg (by simp [hsyn]), if_pos hty]

theorem eval_reduce_cmd (s : RcvCore) (buf : List Nat) (h6 : 6 ≤ buf.length)
    (hsyn : surfacegen5_ssh_is_valid_syn buf)
    (hty : getB buf 2 = 0x80) :
    surfacegen5_ssh_eval_buf s buf = surfacegen5_ssh_receive_msg_cmd s buf := by
  unfold surfacegen5_ssh_eval_buf
  rw [if_neg (by omega), if_neg (by simp [hsyn]), if_neg (by simp [hty]), if_pos hty]

theorem sg5EventOfBuf_append (m r : List Nat)
    (h3 : 8 ≤ getB m 3) (h3b : getB m 3 ≤ 255) (hlen : m.length = 10 + getB m 3) :
    sg5EventOfBuf (m ++ r) = sg5EventOfBuf m := by
  have hpld : (getB m 3 + 65536 - 8) % 65536 = getB m 3 - 8 := by omega
  unfold sg5EventOfBuf
  rw [getB_append_left _ _ 14 (by omega), getB_append_left _ _ 13 (by omega),
      getB_append_left _ _ 9 (by omega), getB_append_left _ _ 12 (by omega),
      getB_append_left _ _ 15 (by omega), getB_append_left _ _ 3 (by omega)]
  rw [hpld, sliceB_append_left _ _ 16 (getB m 3 - 8) (by omega)]

/-- Locality of the evaluator on a complete message: extra bytes after the
message do not change the outcome, the whole message is consumed (for a
command message, provided the kfifo has room for it), and the kfifo
capacity decreases by at most the message's need. -/
theorem sg5EvalStep_complete (s : RcvCore) (m rest : List Nat)
    (h : SG5CompleteMsg m) (hA : sg5MsgFifoNeed m ≤ s.fifoAvail) :
    surfacegen5_ssh_eval_buf s (m ++ rest) = surfacegen5_ssh_eval_buf s m ∧
    (surfacegen5_ssh_eval_buf s m).1 = m.length ∧
    s.fifoAvail - sg5MsgFifoNeed m ≤ (surfacegen5_ssh_eval_buf s m).2.2.fifoAvail := by
  rcases h with hc | hc
  · obtain ⟨hlen, hsyn, hty, hter, hcrc⟩ := hc
    have e2 : getB (m ++ rest) 2 = getB m 2 := getB_append_left _ _ 2 (by omega)
    have e5 : getB (m ++ rest) 5 = getB m 5 := getB_append_left _ _ 5 (by omega)
    have hsyn2 : surfacegen5_ssh_is_valid_syn (m ++ rest) :=
      (valid_syn_append m rest (by omega)).mpr hsyn
    have hter2 : surfacegen5_ssh_is_valid_ter (m ++ rest) 8 :=
      (valid_ter_append m rest 8 (by omega)).mpr hter
    have hcrc2 : surfacegen5_ssh_is_valid_crc (m ++ rest) 2 4 :=
      (valid_crc_append m rest 2 4 (by omega)).mpr hcrc
    have hred1 : surfacegen5_ssh_eval_buf s (m ++ rest) =
        sg5CtrlStep s (getB m 2) (getB m 5) := by
      rw [eval_reduce_ctrl s (m ++ rest)
            (by simp only [List.length_append]; omega) hsyn2
            (by rw [e2]; exact hty),
          receive_msg_ctrl_reduce s (m ++ rest)
            (by simp only [List.length_append]; omega) hter2 hcrc2, e2, e5]
    have hred2 : surfacegen5_ssh_eval_buf s m =
        sg5CtrlStep s (getB m 2) (getB m 5) := by
      rw [eval_reduce_ctrl s m (by omega) hsyn hty,
          receive_msg_ctrl_reduce s m (by omega) hter hcrc]
    have hneed : sg5MsgFifoNeed m = 3 := by
      unfold sg5MsgFifoNeed
      rcases hty with h | h <;> rw [h] <;> simp
    refine ⟨hred1.trans hred2.symm, ?_, ?_⟩
    · rw [hred2, hlen]
      unfold sg5CtrlStep
      repeat' split
      all_goals rfl
    · rw [hred2, hneed]
      unfold sg5CtrlStep
      repeat' split
      all_goals simp
      all_goals omega
  · obtain ⟨hlen, h8, h255, hsyn, hty, hcrc, hcty, hccrc⟩ := hc
    have e2 : getB (m ++ rest) 2 = getB m 2 := getB_append_left _ _ 2 (by omega)
    have e3 : getB (m ++ rest) 3 = getB m 3 := getB_append_left _ _ 3 (by omega)
    have e5 : getB (m ++ rest) 5 = getB m 5 := getB_append_left _ _ 5 (by omega)
    have e8 : getB (m ++ rest) 8 = getB m 8 := getB_append_left _ _ 8 (by omega)
    have e13 : getB (m ++ rest) 13 = getB m 13 := getB_append_left _ _ 13 (by omega)
    have e14 : getB (m ++ rest) 14 = getB m 14 := getB_append_left _ _ 14 (by omega)
    have hsyn2 : surfacegen5_ssh_is_valid_syn (m ++ rest) :=
      (valid_syn_append m rest (by omega)).mpr hsyn
    have hcrc2 : surfacegen5_ssh_is_valid_crc (m ++ rest) 2 4 :=
      (valid_crc_append m rest 2 4 (by omega)).mpr hcrc
    have hccrc2 : surfacegen5_ssh_is_valid_crc (m ++ rest) 8 (getB m 3) :=
      (valid_crc_append m rest 8 (getB m 3) (by omega)).mpr hccrc
    have hev : sg5EventOfBuf (m ++ rest) = sg5EventOfBuf m :=
      sg5EventOfBuf_append m rest h8 h255 hlen
    have hmod : (getB m 3 + 256 - 8) % 256 = getB m 3 - 8 := by omega
    have hsl : sliceB (m ++ rest) 16 ((getB m 3 + 256 - 8) % 256) =
        sliceB m 16 ((getB m 3 + 256 - 8) % 256) := by
      rw [hmod]
      exact sliceB_append_left _ _ 16 _ (by omega)
    have hred1 : surfacegen5_ssh_eval_buf s (m ++ rest) =
        sg5CmdStep s (getB m 2) (getB m 3) (getB m 5)
          ((getB m 14 <<< 8) ||| getB m 13) (getB m 13 ||| (getB m 14 <<< 8))
          (sg5EventOfBuf m) (sliceB m 16 ((getB m 3 + 256 - 8) % 256)) := by
      rw [eval_reduce_cmd s (m ++ rest)
            (by simp only [List.length_append]; omega) hsyn2
            (by rw [e2]; exact hty),
          receive_msg_cmd_reduce s (m ++ rest)
            (by rw [e3]; simp only [List.length_append]; omega) hcrc2
            (by rw [e8]; exact hcty) (by rw [e3]; exact hccrc2),
          e2, e3, e5, e13, e14, hev, hsl]
    have hred2 : surfacegen5_ssh_eval_buf s m =
        sg5CmdStep s (getB m 2) (getB m 3) (getB m 5)
          ((getB m 14 <<< 8) ||| getB m 13) (getB m 13 ||| (getB m 14 <<< 8))
          (sg5EventOfBuf m) (sliceB m 16 ((getB m 3 + 256 - 8) % 256)) := by
      rw [eval_reduce_cmd s m (by omega) hsyn hty,
          receive_msg_cmd_reduce s m (by omega) hcrc hcty hccrc]
    have hneed : sg5MsgFifoNeed m = 3 + (getB m 3 + 256 - 8) % 256 := by
      unfold sg5MsgFifoNeed
      rw [if_pos hty]
    refine ⟨hred1.trans hred2.symm, ?_, ?_⟩
    · rw [hred2, hlen]
      rw [hneed] at hA
      unfold sg5CmdStep
      repeat' split
      all_goals first
        | rfl
        | omega
    · rw [hred2, hneed]
      unfold sg5CmdStep
      repeat' split
      all_goals simp
      all_goals omega

/-- A strict front part of a complete message makes the evaluator ask for
more bytes, with no emission and no state change. -/
theorem sg5EvalStep_front (s : RcvCore) (m : List Nat) (k : Nat)
    (hm : SG5CompleteMsg m) (hk : k < m.length) :
    surfacegen5_ssh_eval_buf s (m.take k) = (0, [], s) := by
  have hkl : (m.take k).length = k := by
    rw [List.length_take]
    omega
  by_cases h6 : k < 6
  · unfold surfacegen5_ssh_eval_buf
    rw [if_pos (by omega)]
  · push_neg at h6
    have hsyn : surfacegen5_ssh_is_valid_syn m := by
      rcases hm with hc | hc
      · exact hc.2.1
      · exact hc.2.2.2.1
    have hsynk : surfacegen5_ssh_is_valid_syn (m.take k) := by
      unfold surfacegen5_ssh_is_valid_syn at hsyn ⊢
      rw [getB_take _ _ _ (by omega), getB_take _ _ _ (by omega)]
      exact hsyn
    have e2 : getB (m.take k) 2 = getB m 2 := getB_take _ _ _ (by omega)
    rcases hm with hc | hc
    · obtain ⟨hlen, _, hty, _, _⟩ := hc
      rw [eval_reduce_ctrl s (m.take k) (by omega) hsynk (by rw [e2]; exact hty)]
      unfold surfacegen5_ssh_receive_msg_ctrl
      rw [if_pos (by omega)]
    · obtain ⟨hlen, h8, h255, _, hty, hcrc, _, _⟩ := hc
      rw [eval_reduce_cmd s (m.take k) (by omega) hsynk (by rw [e2]; exact hty)]
      unfold surfacegen5_ssh_receive_msg_cmd
      by_cases h8k : k < 8
      · rw [if_pos (by omega)]
      · push_neg at h8k
        have e3 : getB (m.take k) 3 = getB m 3 := getB_take _ _ _ (by omega)
        have hcrck : surfacegen5_ssh_is_valid_crc (m.take k) 2 4 := by
          unfold surfacegen5_ssh_is_valid_crc at hcrc ⊢
          rw [getB_take _ _ _ (by omega), getB_take _ _ _ (by omega),
              sliceB_take _ _ _ _ (by omega)]
          exact hcrc
        rw [if_neg (by omega), if_neg (by simp [hcrck]), if_pos (by rw [e3]; omega)]

/-- Running the evaluation loop on a concatenation of complete messages
followed by a stalling tail consumes exactly the messages, produces their
emissions in order, and ends in the reference state, provided the kfifo
has room for all of them and the fuel covers the buffer. -/
theorem sg5EvalLoopFuel_msgs (ms : List (List Nat)) :
    ∀ (fuel : Nat) (s : RcvCore) (p : List Nat),
    (∀ m ∈ ms, SG5CompleteMsg m) →
    (∀ s2, surfacegen5_ssh_eval_buf s2 p = (0, [], s2)) →
    sg5FifoNeed ms ≤ s.fifoAvail →
    (sg5Join ms ++ p).length ≤ fuel →
    sg5EvalLoopFuel fuel s (sg5Join ms ++ p) =
      ((sg5Join ms).length, (sg5ConsumeMsgs s ms).2, (sg5ConsumeMsgs s ms).1) := by
  induction ms with
  | nil =>
    intro fuel s p _ hp _ hfuel
    simp only [sg5Join, List.nil_append, sg5ConsumeMsgs]
    cases fuel with
    | zero =>
      have : p.length = 0 := by
        simpa [sg5Join] using hfuel
      unfold sg5EvalLoopFuel
      rfl
    | succ f =>
      unfold sg5EvalLoopFuel
      by_cases hp0 : p.length = 0
      · rw [if_pos hp0]
        rfl
      · rw [if_neg hp0, hp s]
        simp
  | cons m ms ih =>
    intro fuel s p hm hp hA hfuel
    have hmc : SG5CompleteMsg m := hm m (by simp)
    have hm10 : 10 ≤ m.length := by
      rcases hmc with hc | hc
      · have := hc.1
        omega
      · have := hc.1
        omega
    have hAm : sg5MsgFifoNeed m ≤ s.fifoAvail := by
      have h := hA
      simp only [sg5FifoNeed] at h
      omega
    obtain ⟨hstep, hcons, havail⟩ :=
      sg5EvalStep_complete s m (sg5Join ms ++ p) hmc hAm
    have hjoin : sg5Join (m :: ms) ++ p = m ++ (sg5Join ms ++ p) := by
      simp [sg5Join, List.append_assoc]
    cases fuel with
    | zero =>
      exfalso
      rw [hjoin] at hfuel
      simp only [List.length_append] at hfuel
      omega
    | succ f =>
      rw [hjoin]
      unfold sg5EvalLoopFuel
      rw [if_neg (by simp only [List.length_append]; omega)]
      rw [hstep]
      simp only []
      rw [if_neg (by omega)]
      have hdrop : (m ++ (sg5Join ms ++ p)).drop (surfacegen5_ssh_eval_buf s m).1 =
          sg5Join ms ++ p := by
        rw [hcons]
        exact List.drop_left m (sg5Join ms ++ p)
      rw [hdrop]
      have hA2 : sg5FifoNeed ms ≤ (surfacegen5_ssh_eval_buf s m).2.2.fifoAvail := by
        have h := hA
        simp only [sg5FifoNeed] at h
        omega
      have hf2 : (sg5Join ms ++ p).length ≤ f := by
        rw [hjoin] at hfuel
        simp only [List.length_append] at hfuel ⊢
        omega
      rw [ih f (surfacegen5_ssh_eval_buf s m).2.2 p
            (fun x hx => hm x (by simp [hx])) hp hA2 hf2]
      simp only [sg5ConsumeMsgs, sg5Join, List.length_append]
      rw [hcons]

theorem sg5Join_append (a b : List (List Nat)) :
    sg5Join (a ++ b) = sg5Join a ++ sg5Join b := by
  induction a with
  | nil => simp [sg5Join]
  | cons m ms ih => simp [sg5Join, ih]

theorem sg5FifoNeed_append (a b : List (List Nat)) :
    sg5FifoNeed (a ++ b) = sg5FifoNeed a + sg5FifoNeed b := by
  induction a with
  | nil => simp [sg5FifoNeed]
  | cons m ms ih => simp [sg5FifoNeed, ih]; omega

theorem sg5ConsumeMsgs_append (s : RcvCore) (a b : List (List Nat)) :
    sg5ConsumeMsgs s (a ++ b) =
      ((sg5ConsumeMsgs (sg5ConsumeMsgs s a).1 b).1,
       (sg5ConsumeMsgs s a).2 ++ (sg5ConsumeMsgs (sg5ConsumeMsgs s a).1 b).2) := by
  induction a generalizing s with
  | nil => simp [sg5ConsumeMsgs]
  | cons m ms ih =>
    simp only [List.cons_append, sg5ConsumeMsgs, List.append_eq]
    rw [ih]
    simp [List.append_assoc]

theorem sg5ConsumeMsgs_avail (ms : List (List Nat)) :
    ∀ (s : RcvCore), (∀ m ∈ ms, SG5CompleteMsg m) →
    sg5FifoNeed ms ≤ s.fifoAvail →
    s.fifoAvail - sg5FifoNeed ms ≤ (sg5ConsumeMsgs s ms).1.fifoAvail := by
  induction ms with
  | nil =>
    intro s _ _
    simp [sg5ConsumeMsgs, sg5FifoNeed]
  | cons m ms ih =>
    intro s hm hA
    have hAm : sg5MsgFifoNeed m ≤ s.fifoAvail := by
      have h := hA
      simp only [sg5FifoNeed] at h
      omega
    obtain ⟨_, _, havail⟩ := sg5EvalStep_complete s m [] (hm m (by simp)) hAm
    have hA2 : sg5FifoNeed ms ≤ (surfacegen5_ssh_eval_buf s m).2.2.fifoAvail := by
      have h := hA
      simp only [sg5FifoNeed] at h
      omega
    have := ih (surfacegen5_ssh_eval_buf s m).2.2 (fun x hx => hm x (by simp [hx])) hA2
    simp only [sg5ConsumeMsgs]
    have hneed : sg5FifoNeed (m :: ms) = sg5MsgFifoNeed m + sg5FifoNeed ms := rfl
    omega

/-- `p` is a strict front part of the message stream `ms`: either both are
exhausted, or `p` is a strict front part of the first message. -/
def sg5FrontOf (p : List Nat) (ms : List (List Nat)) : Prop :=
  (p = [] ∧ ms = []) ∨
  ∃ m ms2 k, ms = m :: ms2 ∧ k < m.length ∧ p = m.take k

theorem sg5FrontOf_stalls (p : List Nat) (ms : List (List Nat))
    (hm : ∀ m ∈ ms, SG5CompleteMsg m) (hf : sg5FrontOf p ms) :
    ∀ s, surfacegen5_ssh_eval_buf s p = (0, [], s) := by
  intro s
  rcases hf with ⟨hp, _⟩ | ⟨m, ms2, k, hms, hk, hp⟩
  · subst hp
    unfold surfacegen5_ssh_eval_buf
    rw [if_pos (by simp)]
  · subst hp
    exact sg5EvalStep_front s m k (hm m (by simp [hms])) hk

theorem sg5FrontOf_nil (ms : List (List Nat))
    (hm : ∀ m ∈ ms, SG5CompleteMsg m) : sg5FrontOf [] ms := by
  cases ms with
  | nil => exact Or.inl ⟨rfl, rfl⟩
  | cons m ms2 =>
    refine Or.inr ⟨m, ms2, 0, rfl, ?_, by simp⟩
    have hc := hm m (by simp)
    rcases hc with hc | hc
    · have := hc.1
      omega
    · have := hc.1
      omega

/-- Decomposition of a delivered byte block against the pending message
stream: the block is a concatenation of fully delivered messages followed
by a strict front part of the next pending message. -/
theorem sg5StreamSplit (pending : List (List Nat)) :
    ∀ (b future : List Nat),
    b ++ future = sg5Join pending →
    ∃ done p rest2,
      pending = done ++ rest2 ∧ b = sg5Join done ++ p ∧ sg5FrontOf p rest2 := by
  induction pending with
  | nil =>
    intro b future h
    have hb : b = [] := by
      have hl := congrArg List.length h
      simp only [List.length_append, sg5Join, List.length_nil] at hl
      have : b.length = 0 := by omega
      exact List.eq_nil_of_length_eq_zero this
    exact ⟨[], [], [], by simp, by simp [hb, sg5Join], Or.inl ⟨rfl, rfl⟩⟩
  | cons m ms ih =>
    intro b future h
    have hj : sg5Join (m :: ms) = m ++ sg5Join ms := rfl
    by_cases hlt : b.length < m.length
    · refine ⟨[], b, m :: ms, by simp, by simp [sg5Join],
        Or.inr ⟨m, ms, b.length, rfl, hlt, ?_⟩⟩
      have h1 : (b ++ future).take b.length = b := by
        rw [List.take_append_of_le_length (by omega)]
        exact List.take_length b
      rw [h, hj] at h1
      rw [List.take_append_of_le_length (by omega)] at h1
      exact h1.symm
    · push_neg at hlt
      have h1 : (b ++ future).take m.length = m := by
        rw [h, hj]
        exact List.take_left m (sg5Join ms)
      rw [List.take_append_of_le_length hlt] at h1
      have hsplit : b = m ++ b.drop m.length := by
        conv_lhs => rw [← List.take_append_drop m.length b]
        rw [h1]
      have hrest : b.drop m.length ++ future = sg5Join ms := by
        have h2 : (b ++ future).drop m.length = sg5Join ms := by
          rw [h, hj]
          exact List.drop_left m (sg5Join ms)
        rw [List.drop_append_of_le_length hlt] at h2
        exact h2
      obtain ⟨done, p, rest2, hd1, hd2, hd3⟩ := ih (b.drop m.length) future hrest
      refine ⟨m :: done, p, rest2, by simp [hd1], ?_, hd3⟩
      rw [hsplit, hd2]
      simp [sg5Join, List.append_assoc]

/-- Delivering any sequence of chunks whose bytes continue the pending
message stream drives the receiver exactly through those messages: the
emissions are the reference emissions of the consumed messages and the
evaluation buffer ends empty. -/
theorem sg5ReceiveStream_run (cs : List (List Nat)) :
    ∀ (ms : List (List Nat)) (p : List Nat) (s : RcvCore),
    (∀ m ∈ ms, SG5CompleteMsg m) →
    p ++ sg5Join cs = sg5Join ms →
    sg5FrontOf p ms →
    (sg5Join ms).length ≤ SG5_EVAL_BUF_LEN →
    sg5FifoNeed ms ≤ s.fifoAvail →
    sg5ReceiveStream ⟨s, p⟩ cs =
      (⟨(sg5ConsumeMsgs s ms).1, []⟩, (sg5ConsumeMsgs s ms).2) := by
  induction cs with
  | nil =>
    intro ms p s hm heq hf hcap hA
    rcases hf with ⟨hp, hms⟩ | ⟨m, ms2, k, hms, hk, hp⟩
    · subst hp
      subst hms
      rfl
    · exfalso
      subst hms
      subst hp
      have hl := congrArg List.length heq
      simp only [List.length_append, sg5Join, List.length_take,
        List.length_nil, List.length_append] at hl
      omega
  | cons c cs ih =>
    intro ms p s hm heq hf hcap hA
    have hjc : sg5Join (c :: cs) = c ++ sg5Join cs := rfl
    have hlenms := congrArg List.length heq
    rw [hjc] at hlenms
    simp only [List.length_append] at hlenms
    have hclen : p.length + c.length ≤ SG5_EVAL_BUF_LEN := by omega
    have hb : (p ++ c) ++ sg5Join cs = sg5Join ms := by
      rw [List.append_assoc, ← hjc]
      exact heq
    obtain ⟨done, p2, rest2, hsplit, hbeq, hf2⟩ :=
      sg5StreamSplit ms (p ++ c) (sg5Join cs) hb
    have hjoinsplit : sg5Join ms = sg5Join done ++ sg5Join rest2 := by
      rw [hsplit, sg5Join_append]
    have hmdone : ∀ x ∈ done, SG5CompleteMsg x := fun x hx =>
      hm x (by rw [hsplit]; exact List.mem_append_left _ hx)
    have hmrest : ∀ x ∈ rest2, SG5CompleteMsg x := fun x hx =>
      hm x (by rw [hsplit]; exact List.mem_append_right _ hx)
    have hstall := sg5FrontOf_stalls p2 rest2 hmrest hf2
    have hneedsplit : sg5FifoNeed ms = sg5FifoNeed done + sg5FifoNeed rest2 := by
      rw [hsplit, sg5FifoNeed_append]
    have hAdone : sg5FifoNeed done ≤ s.fifoAvail := by omega
    have hused : min c.length (SG5_EVAL_BUF_LEN - p.length) = c.length := by omega
    have hloop : sg5EvalLoop s (p ++ c) =
        ((sg5Join done).length, (sg5ConsumeMsgs s done).2,
         (sg5ConsumeMsgs s done).1) := by
      unfold sg5EvalLoop
      rw [hbeq]
      exact sg5EvalLoopFuel_msgs done (sg5Join done ++ p2).length s p2
        hmdone hstall hAdone (le_refl _)
    have hdrop : (p ++ c).drop (sg5Join done).length = p2 := by
      rw [hbeq]
      exact List.drop_left _ _
    have hrb : surfacegen5_ssh_receive_buf ⟨s, p⟩ c =
        (⟨(sg5ConsumeMsgs s done).1, p2⟩, (sg5ConsumeMsgs s done).2, c.length) := by
      unfold surfacegen5_ssh_receive_buf
      simp only [hused, List.take_length]
      simp only [hloop, hdrop]
    have heq2 : p2 ++ sg5Join cs = sg5Join rest2 := by
      have h1 : sg5Join done ++ (p2 ++ sg5Join cs) =
          sg5Join done ++ sg5Join rest2 := by
        rw [← List.append_assoc, ← hbeq, hb, hjoinsplit]
      exact List.append_cancel_left h1
    have hcap2 : (sg5Join rest2).length ≤ SG5_EVAL_BUF_LEN := by
      have := congrArg List.length hjoinsplit
      simp only [List.length_append] at this
      omega
    have hA2 : sg5FifoNeed rest2 ≤ (sg5ConsumeMsgs s done).1.fifoAvail := by
      have := sg5ConsumeMsgs_avail done s hmdone hAdone
      omega
    simp only [sg5ReceiveStream]
    rw [hrb]
    simp only []
    rw [ih rest2 p2 (sg5ConsumeMsgs s done).1 hmrest heq2 hf2 hcap2 hA2]
    rw [hsplit, sg5ConsumeMsgs_append]

/-- C2 (amended): for a byte stream that is a concatenation of complete,
well-formed messages, delivered from an empty evaluation buffer, with the
whole stream fitting the evaluation buffer and the kfifo having room for
every message, the reassembler produces the same receiver state and the
same sequence of emissions (FIFO packets and dispatched events) for every
chunking of the stream as for the stream delivered in a single call. -/
theorem c2_chunking_invariance (msgs chunks : List (List Nat)) (core : RcvCore)
    (hm : ∀ m ∈ msgs, SG5CompleteMsg m)
    (hflat : sg5Join chunks = sg5Join msgs)
    (hcap : (sg5Join msgs).length ≤ SG5_EVAL_BUF_LEN)
    (hA : sg5FifoNeed msgs ≤ core.fifoAvail) :
    sg5ReceiveStream ⟨core, []⟩ chunks =
      sg5ReceiveStream ⟨core, []⟩ [sg5Join msgs] := by
  have h1 := sg5ReceiveStream_run chunks msgs [] core hm (by simpa using hflat)
    (sg5FrontOf_nil msgs hm) hcap hA
  have h2 := sg5ReceiveStream_run [sg5Join msgs] msgs [] core hm
    (by simp [sg5Join]) (sg5FrontOf_nil msgs hm) hcap hA
  rw [h1, h2]

/-- Six bytes of line noise (invalid SYN). -/
def c2junk : List Nat := [0, 0, 0, 0, 0, 0]

/-- A valid ACK message with ctrl sequence 0 (CRC of `40 00 00 00`). -/
def c2ack : List Nat := [0xaa, 0x55, 0x40, 0x00, 0x00, 0x00, 92, 234, 0xff, 0xff]

set_option maxRecDepth 16000 in
/-- C2 counterexample: the claim fails for arbitrary byte streams.  For
the stream junk ++ ACK delivered in one call, the invalid-SYN resync
policy discards the entire buffer including the trailing valid ACK (no
message emitted); delivered as two chunks (junk, then ACK), only the junk
is discarded and the ACK is validated and enqueued — a different message
sequence. -/
theorem c2_counterexample :
    (sg5ReceiveStream ⟨c3state, []⟩ [c2junk ++ c2ack]).2 = [] ∧
    (sg5ReceiveStream ⟨c3state, []⟩ [c2junk, c2ack]).2 =
      [SG5Emission.ctrlPacket 0x40 0] := by
  decide

set_option maxRecDepth 16000 in
/-- C2 witness: a single valid ACK message split into two chunks (3 bytes,
then 7) produces the same run as the whole message in one call. -/
theorem c2_chunking_invariance_witness :
    sg5ReceiveStream ⟨c3state, []⟩ [List.take 3 c2ack, List.drop 3 c2ack] =
      sg5ReceiveStream ⟨c3state, []⟩ [sg5Join [c2ack]] :=
  c2_chunking_invariance [c2ack] [List.take 3 c2ack, List.drop 3 c2ack] c3state
    (by decide) (by decide) (by decide) (by decide)
